import Mathlib

/-!
Verification of the Entable sparse-set entity-component registry and its
segmented (chunked) dynamic array, as a shallow embedding of
`ChunkedArray.hpp` and `Entable.hpp`.

Conventions of the embedding:
* `size_t` / `uint32_t` values are modelled as `Nat`; where the C++ code
  relies on 32-bit wraparound (entity handle composition) the reduction
  `% 2 ^ 32` is made explicit through the masked fields.
* Raw chunk memory is modelled one slot at a time as `Option Nat`:
  `some v` means a constructed (live) object holding `v`, `none` means a
  slot on which no object is currently alive (never constructed, or
  destroyed).  `std::construct_at` writes `some v`, `std::destroy_at`
  ends the object lifetime and writes `none`.
* The field `dtorOnDead` counts destructor invocations on slots that hold
  no live object; it corresponds to the construct/destroy counters the
  repository's test suite attaches to its counting element type.
* The registry is embedded in its contiguous configuration
  (`CHUNK_SIZE == 0`), in which every backing container
  (`entities`, `data`, `slotToEntity`, `indexToSlot`) is a `std::vector`,
  modelled as a `List Nat`.  In that mode the embedding of each registry
  operation is an exact transcription of the source.
-/

namespace Entable

/-! ### Entity handle encoding (`Entable.hpp`, `EntityTraits`) -/

/-- `EntityTraits::INDEX_BITS` -/
def INDEX_BITS : Nat := 20

/-- `EntityTraits::VERSION_BITS` (32 - INDEX_BITS) -/
def VERSION_BITS : Nat := 12

/-- `EntityTraits::INDEX_MASK = (1 << INDEX_BITS) - 1` -/
def INDEX_MASK : Nat := 2 ^ INDEX_BITS - 1

/-- `EntityTraits::VERSION_MASK = (1 << VERSION_BITS) - 1` -/
def VERSION_MASK : Nat := 2 ^ VERSION_BITS - 1

/-- `EntityTraits::INVALID_INDEX = INDEX_MASK` -/
def INVALID_INDEX : Nat := INDEX_MASK

/-- `NullEntity`: default `Entity` whose id is `numeric_limits<uint32_t>::max()`. -/
def NullEntity : Nat := 2 ^ 32 - 1

/-- `EntityToIndex(e) = e.id & INDEX_MASK`.  For `x < 2 ^ 20` the bitwise
`and` with the low-bit mask equals `x % 2 ^ 20`. -/
def EntityToIndex (e : Nat) : Nat := e % 2 ^ INDEX_BITS

/-- `EntityToVersion(e) = (e.id >> INDEX_BITS) & VERSION_MASK`, i.e.
division by `2 ^ 20` followed by reduction mod `2 ^ 12`. -/
def EntityToVersion (e : Nat) : Nat := e / 2 ^ INDEX_BITS % 2 ^ VERSION_BITS

/-- `ComposeEntity(index, version) = (version << INDEX_BITS) | (index & INDEX_MASK)`
on `uint32_t`.  The left shift wraps mod `2 ^ 32`, so only `version % 2 ^ 12`
survives, and the two operands of the `or` occupy disjoint bit ranges, so the
`or` is addition. -/
def ComposeEntity (index version : Nat) : Nat :=
  version % 2 ^ VERSION_BITS * 2 ^ INDEX_BITS + index % 2 ^ INDEX_BITS

/-- `NextEntityVersion`: keeps the version of the null sentinel, otherwise
advances it by one mod the version space. -/
def NextEntityVersion (e : Nat) : Nat :=
  if e = NullEntity then EntityToVersion e
  else (EntityToVersion e + 1) % 2 ^ VERSION_BITS

/-! ### The segmented array (`ChunkedArray.hpp`)

A chunk is a raw allocation of `CS` element slots; the slot model is
`Option Nat` (`some v` = constructed object, `none` = no live object).
`ChunkHelper::ChunkIndex` is `>> LOG2` and `OffsetIndex` is `& MASK`; for the
power-of-two chunk sizes the class admits these coincide with `/ CS` and
`% CS`, which is how they are written here. -/

/-- Read the slot of global index `i`.  Mirrors
`chunks[ChunkIndex(idx)].get()[OffsetIndex(idx)]` (`operator[]`); reading a
chunk that was never allocated yields `none` (raw memory). -/
def readSlot (CS : Nat) (chunks : List (List (Option Nat))) (i : Nat) : Option Nat :=
  (chunks.getD (i / CS) []).getD (i % CS) none

/-- Write the slot of global index `i` (used by construct/destroy). -/
def writeSlot (CS : Nat) (chunks : List (List (Option Nat))) (i : Nat)
    (x : Option Nat) : List (List (Option Nat)) :=
  chunks.set (i / CS) ((chunks.getD (i / CS) []).set (i % CS) x)

/-- State of a `ChunkedArray<T, CS>`.

`writePtr = some (ci, off)` models `m_writePtr = chunks[ci].get() + off`
together with `m_chunkEnd = chunks[ci].get() + CS`; `writePtr = none` models
`m_writePtr = m_chunkEnd = nullptr`.  `dtorOnDead` is the instrumentation
counter: number of destructor invocations performed on a slot that held no
live object (the test suite's counting type would see exactly these as
negative-balance destructions). -/
structure ChunkedArray where
  chunks : List (List (Option Nat))
  elemCount : Nat
  writePtr : Option (Nat × Nat)
  dtorOnDead : Nat
deriving DecidableEq

/-- A default-constructed `ChunkedArray`. -/
def initCA : ChunkedArray := { chunks := [], elemCount := 0, writePtr := none, dtorOnDead := 0 }

namespace ChunkedArray

/-- The test `m_writePtr == m_chunkEnd` of `emplace_back`: true when both are
null, or when the cursor offset has reached the chunk capacity. -/
def atChunkEnd (CS : Nat) (s : ChunkedArray) : Bool :=
  match s.writePtr with
  | none => true
  | some (_, off) => off == CS

/-- `update_write_ptr()`: recompute the write cursor from `elemCount`. -/
def update_write_ptr (CS : Nat) (s : ChunkedArray) : ChunkedArray :=
  if s.chunks.isEmpty then { s with writePtr := none }
  else if s.chunks.length ≤ s.elemCount / CS then { s with writePtr := none }
  else { s with writePtr := some (s.elemCount / CS, s.elemCount % CS) }

/-- `make_chunk()`: a fresh chunk of `CS` raw (unconstructed) slots. -/
def make_chunk (CS : Nat) : List (Option Nat) := List.replicate CS none

/-- `allocate_new_chunk()`: append a fresh chunk and point the write cursor at
its first slot.  Note the source always appends at the end of `chunks`,
regardless of where `elemCount` falls. -/
def allocate_new_chunk (CS : Nat) (s : ChunkedArray) : ChunkedArray :=
  { s with chunks := s.chunks ++ [make_chunk CS], writePtr := some (s.chunks.length, 0) }

/-- `std::construct_at` on the slot of global index `i`. -/
def construct_at (CS : Nat) (s : ChunkedArray) (i : Nat) (v : Nat) : ChunkedArray :=
  { s with chunks := writeSlot CS s.chunks i (some v) }

/-- `std::destroy_at` on the slot of global index `i`: ends the object
lifetime; the instrumentation counter records a destructor call on a slot
with no live object. -/
def destroy_at (CS : Nat) (s : ChunkedArray) (i : Nat) : ChunkedArray :=
  { s with chunks := writeSlot CS s.chunks i none,
           dtorOnDead := s.dtorOnDead + (if readSlot CS s.chunks i = none then 1 else 0) }

/-- `emplace_back(v)`: allocate a new chunk when the cursor sits at a chunk
end, construct in the cursor slot, bump count and cursor. -/
def emplace_back (CS : Nat) (s : ChunkedArray) (v : Nat) : ChunkedArray :=
  let s1 := if atChunkEnd CS s then allocate_new_chunk CS s else s
  match s1.writePtr with
  | none => s1  -- unreachable: allocate_new_chunk sets a concrete cursor
  | some (ci, off) =>
    let s2 := construct_at CS s1 (ci * CS + off) v
    { s2 with elemCount := s2.elemCount + 1, writePtr := some (ci, off + 1) }

/-- `push_back` forwards to `emplace_back`. -/
def push_back (CS : Nat) (s : ChunkedArray) (v : Nat) : ChunkedArray :=
  emplace_back CS s v

/-- `pop_back()`: decrement the count, destroy the old last element, then
recompute the write cursor.  The source asserts `elemCount > 0`; the empty
case is modelled as a no-op. -/
def pop_back (CS : Nat) (s : ChunkedArray) : ChunkedArray :=
  if s.elemCount = 0 then s
  else
    let s1 := { s with elemCount := s.elemCount - 1 }
    update_write_ptr CS (destroy_at CS s1 s1.elemCount)

/-- `destroy_elements(first, first + k)` destroys the slots of global indices
`first, first+1, ..., first+k-1`.  The source iterates chunk by chunk over
exactly this index range (its trivially-destructible early-return skips the
destructor calls, which are side-effect-free there; the live-object
bookkeeping is identical). -/
def destroy_range (CS : Nat) : Nat → Nat → ChunkedArray → ChunkedArray
  | 0, _, s => s
  | k + 1, first, s => destroy_range CS k (first + 1) (destroy_at CS s first)

/-- `destroy_elements(first, last)`. -/
def destroy_elements (CS : Nat) (s : ChunkedArray) (first last : Nat) : ChunkedArray :=
  destroy_range CS (last - first) first s

/-- `clear()`: destroy all live elements, release every chunk, reset. -/
def clear (CS : Nat) (s : ChunkedArray) : ChunkedArray :=
  let s1 := destroy_elements CS s 0 s.elemCount
  { chunks := [], elemCount := 0, writePtr := none, dtorOnDead := s1.dtorOnDead }

/-- Chunks needed to hold `count` elements: `ChunkIndex(count - 1) + 1`
(for `count > 0`). -/
def chunksNeeded (CS count : Nat) : Nat := (count - 1) / CS + 1

/-- `allocate_chunks_for(count)`: append fresh chunks until `count` elements
fit (never removes chunks). -/
def allocate_chunks_for (CS : Nat) (s : ChunkedArray) (count : Nat) : ChunkedArray :=
  if count = 0 then s
  else { s with
         chunks := s.chunks ++
           List.replicate (chunksNeeded CS count - s.chunks.length) (make_chunk CS) }

/-- `reserve(count)`: pre-allocate chunks without constructing elements, then
refresh the write cursor. -/
def reserve (CS : Nat) (s : ChunkedArray) (count : Nat) : ChunkedArray :=
  if count = 0 then s
  else update_write_ptr CS (allocate_chunks_for CS s count)

/-- Construct the value `v` into the `k` slots of global indices
`first, ..., first + k - 1` (the per-chunk `uninitialized_default_construct`
/ `uninitialized_fill` loops cover exactly this range). -/
def fill_range (CS : Nat) : Nat → Nat → Nat → ChunkedArray → ChunkedArray
  | 0, _, _, s => s
  | k + 1, first, v, s => fill_range CS k (first + 1) v (construct_at CS s first v)

/-- `ensure_size(count)` (default-constructible `T`; the default value is 0
in this model): grow to `count`, default-constructing the new slots.  The
source's per-chunk loop runs `ci` up to `chunks.size()`, so in addition to
the slots `[old, count)` it default-constructs the whole of every chunk
beyond `ChunkIndex(count - 1)` (such chunks exist after a larger
`reserve`). -/
def ensure_size (CS : Nat) (s : ChunkedArray) (count : Nat) : ChunkedArray :=
  if count ≤ s.elemCount then s
  else
    let old := s.elemCount
    let s1 := allocate_chunks_for CS { s with elemCount := count } count
    let s2 := fill_range CS (count - old) old 0 s1
    let s3 := fill_range CS (s1.chunks.length * CS - chunksNeeded CS count * CS)
      (chunksNeeded CS count * CS) 0 s2
    update_write_ptr CS s3

/-- `resize(count)`: grow like `ensure_size`, or destroy `[count, oldSize)`
and truncate. -/
def resize (CS : Nat) (s : ChunkedArray) (count : Nat) : ChunkedArray :=
  if s.elemCount < count then ensure_size CS s count
  else if count < s.elemCount then
    update_write_ptr CS { destroy_elements CS s count s.elemCount with elemCount := count }
  else s

/-- `resize(count, value)`: like `resize` but filling new slots with `value`.
Its grow loop has the same `ci < chunks.size()` bound as `ensure_size`, so
trailing pre-allocated chunks are filled in full as well. -/
def resize_fill (CS : Nat) (s : ChunkedArray) (count v : Nat) : ChunkedArray :=
  if s.elemCount < count then
    let old := s.elemCount
    let s1 := allocate_chunks_for CS { s with elemCount := count } count
    let s2 := fill_range CS (count - old) old v s1
    let s3 := fill_range CS (s1.chunks.length * CS - chunksNeeded CS count * CS)
      (chunksNeeded CS count * CS) v s2
    update_write_ptr CS s3
  else if count < s.elemCount then
    update_write_ptr CS { destroy_elements CS s count s.elemCount with elemCount := count }
  else s

/-- `shrink_to_fit()`: drop chunks beyond the last one needed. -/
def shrink_to_fit (CS : Nat) (s : ChunkedArray) : ChunkedArray :=
  if s.elemCount = 0 then clear CS s
  else update_write_ptr CS { s with chunks := s.chunks.take (chunksNeeded CS s.elemCount) }

/-- `operator[]`: the object (if any) in the slot of global index `i`. -/
def read (CS : Nat) (s : ChunkedArray) (i : Nat) : Option Nat :=
  readSlot CS s.chunks i

/-- `size()`. -/
def size (s : ChunkedArray) : Nat := s.elemCount

/-- `chunk_count()`. -/
def chunk_count (s : ChunkedArray) : Nat := s.chunks.length

end ChunkedArray

/-! ### Operation sequences on the segmented array, and the reference vector -/

/-- One mutating operation of the vector-equivalence property. -/
inductive CAOp where
  | push (v : Nat)
  | pop
  | resizeOp (n : Nat)
  | resizeFillOp (n v : Nat)
  | ensureOp (n : Nat)
  | clearOp
  | reserveOp (n : Nat)
deriving DecidableEq

/-- Apply one operation to the chunked array. -/
def stepCA (CS : Nat) (s : ChunkedArray) : CAOp → ChunkedArray
  | .push v => ChunkedArray.push_back CS s v
  | .pop => ChunkedArray.pop_back CS s
  | .resizeOp n => ChunkedArray.resize CS s n
  | .resizeFillOp n v => ChunkedArray.resize_fill CS s n v
  | .ensureOp n => ChunkedArray.ensure_size CS s n
  | .clearOp => ChunkedArray.clear CS s
  | .reserveOp n => ChunkedArray.reserve CS s n

/-- Run a sequence of operations from the empty array. -/
def runCA (CS : Nat) (ops : List CAOp) : ChunkedArray :=
  ops.foldl (stepCA CS) initCA

/-- The reference dynamic array (`std::vector` semantics) on the same
operation language; default-constructed `T` is the value 0. -/
def stepVec (l : List Nat) : CAOp → List Nat
  | .push v => l ++ [v]
  | .pop => l.dropLast
  | .resizeOp n => if n ≤ l.length then l.take n else l ++ List.replicate (n - l.length) 0
  | .resizeFillOp n v => if n ≤ l.length then l.take n else l ++ List.replicate (n - l.length) v
  | .ensureOp n => if n ≤ l.length then l else l ++ List.replicate (n - l.length) 0
  | .clearOp => []
  | .reserveOp _ => l

/-- Run the reference vector. -/
def runVec (ops : List CAOp) : List Nat :=
  ops.foldl stepVec []

/-- The chunk-skipping sequence: pop below a chunk boundary, then push back
across it (chunk size 1). -/
def skipOps : List CAOp :=
  [CAOp.push 1, CAOp.push 2, CAOp.pop, CAOp.pop, CAOp.push 3, CAOp.push 4]

/-- State of the chunk-size-1 array after `skipOps`. -/
def skipState : ChunkedArray := runCA 1 skipOps

/-- The §8 regression scenario: chunk size 256, push 384 elements, pop down
to 256, push 777. -/
def regressionOps : List CAOp :=
  (List.range 384).map CAOp.push ++ List.replicate 128 CAOp.pop ++ [CAOp.push 777]

/-- State of the chunk-size-256 array after `regressionOps`. -/
def regressionState : ChunkedArray := runCA 256 regressionOps

/-! Checkpoint states used to evaluate `regressionState` in segments (the
kernel cannot force the whole 513-operation fold in one go). -/

/-- First 128 pushes of the §8 regression scenario. -/
def c5ops1 : List CAOp := (List.range' 0 128).map CAOp.push

/-- Pushes 128..255 of the §8 regression scenario. -/
def c5ops2 : List CAOp := (List.range' 128 128).map CAOp.push

/-- Pushes 256..383 of the §8 regression scenario. -/
def c5ops3 : List CAOp := (List.range' 256 128).map CAOp.push

/-- The 128 pops of the §8 regression scenario. -/
def c5pops : List CAOp := List.replicate 128 CAOp.pop

/-- State after the first 128 pushes. -/
def c5s1 : ChunkedArray :=
  { chunks := [(List.range' 0 128).map some ++ List.replicate 128 none],
    elemCount := 128, writePtr := some (0, 128), dtorOnDead := 0 }

/-- State after 256 pushes: chunk 0 full, cursor at its end. -/
def c5s2 : ChunkedArray :=
  { chunks := [(List.range' 0 256).map some],
    elemCount := 256, writePtr := some (0, 256), dtorOnDead := 0 }

/-- State after all 384 pushes: two chunks. -/
def c5s3 : ChunkedArray :=
  { chunks := [(List.range' 0 256).map some,
               (List.range' 256 128).map some ++ List.replicate 128 none],
    elemCount := 384, writePtr := some (1, 128), dtorOnDead := 0 }

/-- State after popping down to exactly the chunk boundary: chunk 1 is kept
and the cursor points at its first slot. -/
def c5s4 : ChunkedArray :=
  { chunks := [(List.range' 0 256).map some, List.replicate 256 none],
    elemCount := 256, writePtr := some (1, 0), dtorOnDead := 0 }

/-- State after the final `push_back(777)`. -/
def c5s5 : ChunkedArray :=
  { chunks := [(List.range' 0 256).map some, some 777 :: List.replicate 255 none],
    elemCount := 257, writePtr := some (1, 1), dtorOnDead := 0 }

/-! ### The registry (`Entable.hpp`)

The registry is embedded in its contiguous configuration (`CHUNK_SIZE == 0`,
`IsContiguous`), in which `entities` and the three parallel containers of
every `ComponentStorage` are `std::vector`s, modelled as `List Nat`.
Component payloads are abstracted to `Nat` (value-initialised to 0 by
`Init`'s `emplace_back()`); the bookkeeping performed by the storage is
identical for every component type. -/

/-- One `ComponentStorage`: dense component values, the parallel dense array
of owning entity handles, and the sparse entity-index → dense-slot map. -/
structure Storage where
  data : List Nat
  slotToEntity : List Nat
  indexToSlot : List Nat
deriving DecidableEq

/-- A storage with no dense slots and an empty sparse map. -/
def emptyStorage : Storage := { data := [], slotToEntity := [], indexToSlot := [] }

namespace Storage

/-- `EnsureSparseSlot(entityIndex)`: grow the sparse map to cover
`entityIndex` (contiguous mode: `resize(entityIndex + 1)`, value-initialising
new entries to 0). -/
def EnsureSparseSlot (l : List Nat) (entityIndex : Nat) : List Nat :=
  if l.length ≤ entityIndex then l ++ List.replicate (entityIndex + 1 - l.length) 0 else l

/-- `Init(entityIndex, entity)`: append a default-constructed dense slot,
record the owning entity, and point the sparse entry at the new slot. -/
def Init (st : Storage) (entityIndex : Nat) (entity : Nat) : Storage :=
  let slot := st.data.length
  { data := st.data ++ [0],
    slotToEntity := st.slotToEntity ++ [entity],
    indexToSlot := (EnsureSparseSlot st.indexToSlot entityIndex).set entityIndex slot }

/-- `Kill(entityIndex)`: swap-with-last removal of the entity's dense slot. -/
def Kill (st : Storage) (entityIndex : Nat) : Storage :=
  let slot := st.indexToSlot.getD entityIndex 0
  let last := st.data.length - 1
  let st1 :=
    if slot ≠ last then
      let movedEntity := st.slotToEntity.getD last 0
      { data := st.data.set slot (st.data.getD last 0),
        slotToEntity := st.slotToEntity.set slot movedEntity,
        indexToSlot := st.indexToSlot.set (EntityToIndex movedEntity) slot }
    else st
  { st1 with data := st1.data.dropLast, slotToEntity := st1.slotToEntity.dropLast }

/-- Unchecked `Set(entityIndex, v)`: overwrite the dense value behind the
sparse entry. -/
def SetVal (st : Storage) (entityIndex v : Nat) : Storage :=
  { st with data := st.data.set (st.indexToSlot.getD entityIndex 0) v }

/-- `Clear()`. -/
def ClearStorage (_ : Storage) : Storage := emptyStorage

/-- `DenseSize()`. -/
def DenseSize (st : Storage) : Nat := st.data.length

end Storage

/-- Errors raised by the registry: the three invalid-entity conditions
reported by `CheckEntity`, and capacity exhaustion from `CreateEntity`. -/
inductive RegError where
  | nullEntity    -- "Invalid Entity (Null Entity)"
  | outOfBounds   -- "Invalid Entity (out of bounds)"
  | staleEntity   -- "Invalid Entity (not active or stale version)"
  | tooMany       -- "Can't create Entity (too many entities)"
deriving DecidableEq

/-- Registry state: entity table, free-list head and count, and one storage
per component type. -/
structure RegState where
  entities : List Nat
  fNext : Nat
  fSize : Nat
  storages : List Storage
deriving DecidableEq

/-- A freshly constructed registry with `n` component types. -/
def initReg (n : Nat) : RegState :=
  { entities := [], fNext := INVALID_INDEX, fSize := 0,
    storages := List.replicate n emptyStorage }

namespace RegState

/-- `IsValidEntity(e)`. -/
def IsValidEntity (s : RegState) (e : Nat) : Bool :=
  if e = NullEntity then false
  else if s.entities.length ≤ EntityToIndex e then false
  else s.entities.getD (EntityToIndex e) 0 == e

/-- `CheckEntity(e)`: `none` when valid, otherwise the raised error. -/
def CheckEntity (s : RegState) (e : Nat) : Option RegError :=
  if e = NullEntity then some RegError.nullEntity
  else if s.entities.length ≤ EntityToIndex e then some RegError.outOfBounds
  else if s.entities.getD (EntityToIndex e) 0 ≠ e then some RegError.staleEntity
  else none

/-- `CreateEntity()`: reuse the free-list head, or append a fresh slot
(raising the capacity error once the index space is full). -/
def CreateEntity (s : RegState) : Except RegError (Nat × RegState) :=
  if 0 < s.fSize then
    let i := s.fNext
    let fNext := EntityToIndex (s.entities.getD i 0)
    let v := EntityToVersion (s.entities.getD i 0)
    let e := ComposeEntity i v
    Except.ok (e,
      { entities := s.entities.set i e, fNext := fNext, fSize := s.fSize - 1,
        storages := s.storages.map (fun st => st.Init i e) })
  else if INVALID_INDEX ≤ s.entities.length then Except.error RegError.tooMany
  else
    let e := ComposeEntity s.entities.length 0
    Except.ok (e,
      { s with entities := s.entities ++ [e],
               storages := s.storages.map (fun st => st.Init (EntityToIndex e) e) })

/-- `DestroyEntity(e)`: validate, `Kill` in every storage, then push the
index onto the free list with the advanced version. -/
def DestroyEntity (s : RegState) (e : Nat) : Except RegError RegState :=
  match s.CheckEntity e with
  | some err => Except.error err
  | none =>
    let i := EntityToIndex e
    let nextVer := NextEntityVersion (s.entities.getD i 0)
    Except.ok
      { entities := s.entities.set i (ComposeEntity s.fNext nextVer),
        fNext := i, fSize := s.fSize + 1,
        storages := s.storages.map (fun st => st.Kill i) }

/-- Unchecked `Set<C>(e, v)` routed to the storage at position `k` of the
component-type list. -/
def SetComp (s : RegState) (k e v : Nat) : RegState :=
  { s with storages := s.storages.set k ((s.storages.getD k emptyStorage).SetVal (EntityToIndex e) v) }

/-- `SetSafe<C>(e, v)`: `CheckEntity` first, then the unchecked path. -/
def SetSafe (s : RegState) (k e v : Nat) : Except RegError RegState :=
  match s.CheckEntity e with
  | some err => Except.error err
  | none => Except.ok (s.SetComp k e v)

/-- `Clear()`. -/
def Clear (s : RegState) : RegState :=
  { entities := [], fNext := INVALID_INDEX, fSize := 0,
    storages := s.storages.map Storage.ClearStorage }

/-- `Size()` / `RawSize()`: allocated indices minus free count. -/
def Size (s : RegState) : Nat := s.entities.length - s.fSize

end RegState

/-- One registry operation; a raised error leaves the state unchanged (the
exception propagates before any mutation). -/
inductive RegOp where
  | create
  | destroy (e : Nat)
  | setComp (k e v : Nat)
  | setSafe (k e v : Nat)
  | clearOp
deriving DecidableEq

/-- Apply one registry operation. -/
def stepReg (s : RegState) : RegOp → RegState
  | .create =>
    match s.CreateEntity with
    | Except.ok (_, s1) => s1
    | Except.error _ => s
  | .destroy e =>
    match s.DestroyEntity e with
    | Except.ok s1 => s1
    | Except.error _ => s
  | .setComp k e v => s.SetComp k e v
  | .setSafe k e v =>
    match s.SetSafe k e v with
    | Except.ok s1 => s1
    | Except.error _ => s
  | .clearOp => s.Clear

/-- Run an operation sequence on a fresh registry with `n` component types. -/
def runReg (n : Nat) (ops : List RegOp) : RegState :=
  ops.foldl stepReg (initReg n)

/-- The dense slot a storage assigns to the entity `e`
(`indexToSlot[EntityToIndex(e)]`). -/
def denseSlotOf (st : Storage) (e : Nat) : Nat :=
  st.indexToSlot.getD (EntityToIndex e) 0

/-! ### Free-list chain and the registry invariant -/

/-- The free-list chain: starting from head `nxt`, follow the index bits
stored in each freed slot, `k` steps. -/
def chainAux (ents : List Nat) : Nat → Nat → List Nat
  | 0, _ => []
  | k + 1, nxt => nxt :: chainAux ents k (EntityToIndex (ents.getD nxt 0))

/-- The "next" value reached after following the chain for `k` steps. -/
def afterChain (ents : List Nat) : Nat → Nat → Nat
  | 0, nxt => nxt
  | k + 1, nxt => afterChain ents k (EntityToIndex (ents.getD nxt 0))

/-- The free-list chain of a registry state. -/
def freeChain (s : RegState) : List Nat := chainAux s.entities s.fSize s.fNext

/-- Invariant of every reachable registry state: the table never exceeds the
index space; the free chain is duplicate-free, in bounds, each free slot's
stored next-index differs from the slot itself and the chain ends at the
invalid-index sentinel; live slots carry their own index; and every storage
carries the same bookkeeping with dense length equal to the live count. -/
def Inv (s : RegState) : Prop :=
  s.entities.length ≤ INDEX_MASK ∧
  (freeChain s).Nodup ∧
  (∀ j ∈ freeChain s, j < s.entities.length) ∧
  (∀ j ∈ freeChain s, EntityToIndex (s.entities.getD j 0) ≠ j) ∧
  afterChain s.entities s.fSize s.fNext = INVALID_INDEX ∧
  (∀ j < s.entities.length, j ∉ freeChain s → EntityToIndex (s.entities.getD j 0) = j) ∧
  (∀ st ∈ s.storages, st.data.length = s.Size) ∧
  (∀ st1 ∈ s.storages, ∀ st2 ∈ s.storages,
    st1.slotToEntity = st2.slotToEntity ∧ st1.indexToSlot = st2.indexToSlot)

/-- Registry state after creating one entity (handle 0) in a one-component
registry and destroying it again: the slot stores the free-list sentinel with
the advanced version, the storage's dense arrays are empty, and the stale
sparse entry remains. -/
def c7post : RegState :=
  { entities := [ComposeEntity INVALID_INDEX 1], fNext := 0, fSize := 1,
    storages := [{ data := [], slotToEntity := [], indexToSlot := [0] }] }

/-- A chunk-size-2 array holding 5, 6, 7 (used to instantiate the resize
frame property). -/
def c8pre : ChunkedArray := runCA 2 [CAOp.push 5, CAOp.push 6, CAOp.push 7]

/-- A mixed operation sequence on a two-component registry, used to
instantiate the cross-storage alignment invariant. -/
def c3ops : List RegOp :=
  [RegOp.create, RegOp.create, RegOp.destroy 0, RegOp.setComp 0 1 42, RegOp.create,
   RegOp.setSafe 1 1 7]

/-- The state produced by a successful `DestroyEntity(e)` (the body of its
success branch, named for reuse in proofs). -/
def destroyedState (s : RegState) (e : Nat) : RegState :=
  { entities := s.entities.set (EntityToIndex e)
      (ComposeEntity s.fNext (NextEntityVersion (s.entities.getD (EntityToIndex e) 0))),
    fNext := EntityToIndex e,
    fSize := s.fSize + 1,
    storages := s.storages.map (fun st => st.Kill (EntityToIndex e)) }

/-- The handle/state pair produced by `CreateEntity` on its free-list-reuse
branch. -/
def reuseCreated (s : RegState) : Nat × RegState :=
  (ComposeEntity s.fNext (EntityToVersion (s.entities.getD s.fNext 0)),
   { entities := s.entities.set s.fNext
        (ComposeEntity s.fNext (EntityToVersion (s.entities.getD s.fNext 0))),
     fNext := EntityToIndex (s.entities.getD s.fNext 0),
     fSize := s.fSize - 1,
     storages := s.storages.map (fun st =>
       st.Init s.fNext (ComposeEntity s.fNext (EntityToVersion (s.entities.getD s.fNext 0)))) })

/-- The handle/state pair produced by `CreateEntity` on its fresh-slot
branch. -/
def freshCreated (s : RegState) : Nat × RegState :=
  (ComposeEntity s.entities.length 0,
   { s with
     entities := s.entities ++ [ComposeEntity s.entities.length 0],
     storages := s.storages.map (fun st =>
       st.Init (EntityToIndex (ComposeEntity s.entities.length 0))
         (ComposeEntity s.entities.length 0)) })

/-! ### List access helper lemmas -/

theorem getD_set_ne {α : Type} (l : List α) (i j : Nat) (x d : α) (h : i ≠ j) :
    (l.set i x).getD j d = l.getD j d := by
  simp [List.getD_eq_getElem?_getD, List.getElem?_set_ne h]

theorem getD_set_self {α : Type} (l : List α) (i : Nat) (x d : α) (h : i < l.length) :
    (l.set i x).getD i d = x := by
  simp [List.getD_eq_getElem?_getD, List.getElem?_set_self h]

theorem getD_append_left {α : Type} (l l2 : List α) (j : Nat) (d : α) (h : j < l.length) :
    (l ++ l2).getD j d = l.getD j d := by
  simp [List.getD_eq_getElem?_getD, List.getElem?_append_left h]

theorem getD_append_length {α : Type} (l : List α) (x d : α) :
    (l ++ [x]).getD l.length d = x := by
  simp [List.getD_eq_getElem?_getD, List.getElem?_concat_length]

theorem nodup_length_le (l : List Nat) (n : Nat) (hn : l.Nodup)
    (hb : ∀ x ∈ l, x < n) : l.length ≤ n := by
  have h1 : l.toFinset.card = l.length := List.toFinset_card_of_nodup hn
  have h2 : l.toFinset ⊆ Finset.range n := by
    intro x hx
    simp only [List.mem_toFinset] at hx
    exact Finset.mem_range.mpr (hb x hx)
  have := Finset.card_le_card h2
  simpa [h1, Finset.card_range] using this

/-! ### Entity encoding lemmas -/

theorem EntityToIndex_compose (i v : Nat) :
    EntityToIndex (ComposeEntity i v) = i % 2 ^ 20 := by
  simp only [EntityToIndex, ComposeEntity, INDEX_BITS, VERSION_BITS]
  omega

theorem EntityToVersion_compose (i v : Nat) :
    EntityToVersion (ComposeEntity i v) = v % 2 ^ 12 := by
  simp only [EntityToVersion, ComposeEntity, INDEX_BITS, VERSION_BITS]
  omega

theorem EntityToVersion_lt (e : Nat) : EntityToVersion e < 2 ^ 12 := by
  simp only [EntityToVersion, VERSION_BITS, INDEX_BITS]
  omega

theorem EntityToIndex_null : EntityToIndex NullEntity = INDEX_MASK := by
  simp only [EntityToIndex, NullEntity, INDEX_BITS, INDEX_MASK]
  omega

theorem ne_null_of_index_lt (e : Nat) (h : EntityToIndex e < INDEX_MASK) :
    e ≠ NullEntity := by
  intro he
  rw [he, EntityToIndex_null] at h
  exact lt_irrefl _ h

theorem EntityToIndex_lt_mask (e i : Nat) (h1 : EntityToIndex e = i)
    (h2 : i < INDEX_MASK) : e ≠ NullEntity :=
  ne_null_of_index_lt e (h1 ▸ h2)

/-! ### Free-chain lemmas -/

theorem chainAux_set_of_not_mem (ents : List Nat) (i x : Nat) :
    ∀ (k n : Nat), i ∉ chainAux ents k n →
      chainAux (ents.set i x) k n = chainAux ents k n
  | 0, _, _ => rfl
  | k + 1, n, h => by
    simp only [chainAux, List.mem_cons, not_or] at h ⊢
    rw [getD_set_ne ents i n x 0 h.1,
        chainAux_set_of_not_mem ents i x k (EntityToIndex (ents.getD n 0)) h.2]

theorem afterChain_set_of_not_mem (ents : List Nat) (i x : Nat) :
    ∀ (k n : Nat), i ∉ chainAux ents k n →
      afterChain (ents.set i x) k n = afterChain ents k n
  | 0, _, _ => rfl
  | k + 1, n, h => by
    simp only [chainAux, List.mem_cons, not_or] at h
    simp only [afterChain]
    rw [getD_set_ne ents i n x 0 h.1,
        afterChain_set_of_not_mem ents i x k (EntityToIndex (ents.getD n 0)) h.2]

/-! ### Invariant preservation -/

theorem inv_initReg (n : Nat) : Inv (initReg n) := by
  refine ⟨?_, ?_, ?_, ?_, ?_, ?_, ?_, ?_⟩
  · simp [initReg, INDEX_MASK, INDEX_BITS]
  · simp [initReg, freeChain, chainAux]
  · simp [initReg, freeChain, chainAux]
  · simp [initReg, freeChain, chainAux]
  · simp [initReg, afterChain]
  · simp [initReg]
  · intro st hst
    simp only [initReg, List.mem_replicate] at hst
    simp [initReg, hst.2, emptyStorage, RegState.Size]
  · intro st1 h1 st2 h2
    simp only [initReg, List.mem_replicate] at h1 h2
    simp [h1.2, h2.2]

theorem inv_Clear (s : RegState) : Inv s.Clear := by
  refine ⟨?_, ?_, ?_, ?_, ?_, ?_, ?_, ?_⟩
  · simp [RegState.Clear, INDEX_MASK, INDEX_BITS]
  · simp [RegState.Clear, freeChain, chainAux]
  · simp [RegState.Clear, freeChain, chainAux]
  · simp [RegState.Clear, freeChain, chainAux]
  · simp [RegState.Clear, afterChain]
  · simp [RegState.Clear]
  · intro st hst
    simp only [RegState.Clear, List.mem_map] at hst
    obtain ⟨st0, _, rfl⟩ := hst
    simp [Storage.ClearStorage, emptyStorage, RegState.Size, RegState.Clear]
  · intro st1 h1 st2 h2
    simp only [RegState.Clear, List.mem_map] at h1 h2
    obtain ⟨st0, _, rfl⟩ := h1
    obtain ⟨st3, _, rfl⟩ := h2
    simp [Storage.ClearStorage, emptyStorage]

theorem inv_SetComp (s : RegState) (k e v : Nat) (hs : Inv s) :
    Inv (s.SetComp k e v) := by
  obtain ⟨h1, h2, h3, h4, h5, h6, h7, h8⟩ := hs
  have hent : (s.SetComp k e v).entities = s.entities := rfl
  have hchain : freeChain (s.SetComp k e v) = freeChain s := rfl
  refine ⟨?_, ?_, ?_, ?_, ?_, ?_, ?_, ?_⟩
  · exact h1
  · exact hchain ▸ h2
  · exact hchain ▸ h3
  · exact hchain ▸ h4
  · exact h5
  · exact h6
  · intro st hst
    rcases Nat.lt_or_ge k s.storages.length with hk | hk
    · rcases List.mem_or_eq_of_mem_set hst with hmem | rfl
      · exact h7 st hmem
      · have hm : s.storages.getD k emptyStorage ∈ s.storages := by
          rw [List.getD_eq_getElem s.storages emptyStorage hk]
          exact List.getElem_mem hk
        have := h7 _ hm
        simpa [Storage.SetVal, RegState.Size] using this
    · have hsto : (s.SetComp k e v).storages = s.storages := by
        show s.storages.set k _ = s.storages
        exact List.set_eq_of_length_le hk
      rw [hsto] at hst
      exact h7 st hst
  · intro st1 hst1 st2 hst2
    rcases Nat.lt_or_ge k s.storages.length with hk | hk
    · have hm : s.storages.getD k emptyStorage ∈ s.storages := by
        rw [List.getD_eq_getElem s.storages emptyStorage hk]
        exact List.getElem_mem hk
      have get1 : ∀ st ∈ (s.SetComp k e v).storages,
          st.slotToEntity = (s.storages.getD k emptyStorage).slotToEntity ∧
          st.indexToSlot = (s.storages.getD k emptyStorage).indexToSlot := by
        intro st hst
        rcases List.mem_or_eq_of_mem_set hst with hmem | rfl
        · exact h8 st hmem _ hm
        · simp [Storage.SetVal]
      obtain ⟨a1, a2⟩ := get1 st1 hst1
      obtain ⟨b1, b2⟩ := get1 st2 hst2
      exact ⟨a1.trans b1.symm, a2.trans b2.symm⟩
    · have hsto : (s.SetComp k e v).storages = s.storages := by
        show s.storages.set k _ = s.storages
        exact List.set_eq_of_length_le hk
      rw [hsto] at hst1 hst2
      exact h8 st1 hst1 st2 hst2

theorem length_chainAux (ents : List Nat) :
    ∀ (k n : Nat), (chainAux ents k n).length = k
  | 0, _ => rfl
  | k + 1, n => by
    simp only [chainAux, List.length_cons]
    rw [length_chainAux ents k (EntityToIndex (ents.getD n 0))]

theorem Kill_data_length (st : Storage) (i : Nat) :
    (st.Kill i).data.length = st.data.length - 1 := by
  rw [Storage.Kill]
  split
  · simp
  · simp

theorem Kill_bookkeeping (st1 st2 : Storage) (i : Nat)
    (hs : st1.slotToEntity = st2.slotToEntity)
    (hi : st1.indexToSlot = st2.indexToSlot)
    (hd : st1.data.length = st2.data.length) :
    (st1.Kill i).slotToEntity = (st2.Kill i).slotToEntity ∧
    (st1.Kill i).indexToSlot = (st2.Kill i).indexToSlot := by
  rw [Storage.Kill, Storage.Kill, hs, hi, hd]
  split
  · simp [hs, hi]
  · simp [hs, hi]

theorem Init_bookkeeping (st1 st2 : Storage) (i e : Nat)
    (hs : st1.slotToEntity = st2.slotToEntity)
    (hi : st1.indexToSlot = st2.indexToSlot)
    (hd : st1.data.length = st2.data.length) :
    (st1.Init i e).slotToEntity = (st2.Init i e).slotToEntity ∧
    (st1.Init i e).indexToSlot = (st2.Init i e).indexToSlot := by
  rw [Storage.Init, Storage.Init, hs, hi, hd]
  exact ⟨rfl, rfl⟩

theorem Init_data_length (st : Storage) (i e : Nat) :
    (st.Init i e).data.length = st.data.length + 1 := by
  simp [Storage.Init]

theorem mod_pow20_eq (i : Nat) (h : i ≤ INDEX_MASK) : i % 2 ^ 20 = i := by
  simp only [INDEX_MASK, INDEX_BITS] at h
  omega

theorem inv_create_reuse (s : RegState) (hs : Inv s) (hpos : 0 < s.fSize) :
    Inv { entities := s.entities.set s.fNext
            (ComposeEntity s.fNext (EntityToVersion (s.entities.getD s.fNext 0))),
          fNext := EntityToIndex (s.entities.getD s.fNext 0),
          fSize := s.fSize - 1,
          storages := s.storages.map (fun st =>
            st.Init s.fNext
              (ComposeEntity s.fNext (EntityToVersion (s.entities.getD s.fNext 0)))) } := by
  obtain ⟨h1, h2, h3, h4, h5, h6, h7, h8⟩ := hs
  obtain ⟨k, hk⟩ : ∃ k, s.fSize = k + 1 :=
    ⟨s.fSize - 1, (Nat.succ_pred_eq_of_pos hpos).symm⟩
  have hchain : freeChain s =
      s.fNext :: chainAux s.entities k (EntityToIndex (s.entities.getD s.fNext 0)) := by
    rw [freeChain, hk, chainAux]
  rw [hchain] at h2 h3 h4 h6
  have hflt : s.fNext < s.entities.length := h3 s.fNext (List.mem_cons_self _ _)
  rw [List.nodup_cons] at h2
  obtain ⟨hfnotail, htailnd⟩ := h2
  have hf20 : s.fNext % 2 ^ 20 = s.fNext :=
    mod_pow20_eq _ (le_of_lt (lt_of_lt_of_le hflt h1))
  have hchainlen : k + 1 ≤ s.entities.length := by
    have hnd : (s.fNext :: chainAux s.entities k
        (EntityToIndex (s.entities.getD s.fNext 0))).Nodup :=
      List.nodup_cons.mpr ⟨hfnotail, htailnd⟩
    have := nodup_length_le _ s.entities.length hnd h3
    rw [List.length_cons, length_chainAux] at this
    exact this
  have hset : chainAux (s.entities.set s.fNext
        (ComposeEntity s.fNext (EntityToVersion (s.entities.getD s.fNext 0))))
        (s.fSize - 1) (EntityToIndex (s.entities.getD s.fNext 0)) =
      chainAux s.entities k (EntityToIndex (s.entities.getD s.fNext 0)) := by
    rw [hk, Nat.add_sub_cancel,
        chainAux_set_of_not_mem s.entities s.fNext _ k _ hfnotail]
  refine ⟨?_, ?_, ?_, ?_, ?_, ?_, ?_, ?_⟩
  · show (s.entities.set s.fNext _).length ≤ INDEX_MASK
    rw [List.length_set]
    exact h1
  · show (chainAux (s.entities.set s.fNext _) (s.fSize - 1) _).Nodup
    rw [hset]
    exact htailnd
  · intro j hj
    replace hj : j ∈ chainAux (s.entities.set s.fNext
        (ComposeEntity s.fNext (EntityToVersion (s.entities.getD s.fNext 0))))
        (s.fSize - 1) (EntityToIndex (s.entities.getD s.fNext 0)) := hj
    rw [hset] at hj
    show j < (s.entities.set s.fNext _).length
    rw [List.length_set]
    exact h3 j (List.mem_cons_of_mem _ hj)
  · intro j hj
    replace hj : j ∈ chainAux (s.entities.set s.fNext
        (ComposeEntity s.fNext (EntityToVersion (s.entities.getD s.fNext 0))))
        (s.fSize - 1) (EntityToIndex (s.entities.getD s.fNext 0)) := hj
    rw [hset] at hj
    have hji : s.fNext ≠ j := fun hji => hfnotail (hji ▸ hj)
    show EntityToIndex ((s.entities.set s.fNext _).getD j 0) ≠ j
    rw [getD_set_ne _ _ _ _ _ hji]
    exact h4 j (List.mem_cons_of_mem _ hj)
  · show afterChain (s.entities.set s.fNext _) (s.fSize - 1) _ = INVALID_INDEX
    rw [hk, Nat.add_sub_cancel,
        afterChain_set_of_not_mem s.entities s.fNext _ k _ hfnotail]
    have hafter := h5
    rw [hk, afterChain] at hafter
    exact hafter
  · intro j hj hnot
    replace hnot : j ∉ chainAux (s.entities.set s.fNext
        (ComposeEntity s.fNext (EntityToVersion (s.entities.getD s.fNext 0))))
        (s.fSize - 1) (EntityToIndex (s.entities.getD s.fNext 0)) := hnot
    rw [hset] at hnot
    replace hj : j < (s.entities.set s.fNext
        (ComposeEntity s.fNext (EntityToVersion (s.entities.getD s.fNext 0)))).length := hj
    rw [List.length_set] at hj
    show EntityToIndex ((s.entities.set s.fNext _).getD j 0) = j
    by_cases hji : j = s.fNext
    · rw [hji, getD_set_self _ _ _ _ hflt, EntityToIndex_compose, hf20]
    · rw [getD_set_ne _ _ _ _ _ (fun hij => hji hij.symm)]
      refine h6 j hj ?_
      simp only [List.mem_cons, not_or]
      exact ⟨hji, hnot⟩
  · intro st hst
    obtain ⟨st0, hst0, rfl⟩ := List.mem_map.mp hst
    show (st0.Init s.fNext _).data.length =
      (s.entities.set s.fNext _).length - (s.fSize - 1)
    rw [Init_data_length, h7 st0 hst0, RegState.Size, List.length_set, hk]
    omega
  · intro st1 hst1 st2 hst2
    obtain ⟨stA, hstA, rfl⟩ := List.mem_map.mp hst1
    obtain ⟨stB, hstB, rfl⟩ := List.mem_map.mp hst2
    obtain ⟨hb1, hb2⟩ := h8 stA hstA stB hstB
    have hd : stA.data.length = stB.data.length := by
      rw [h7 stA hstA, h7 stB hstB]
    exact Init_bookkeeping stA stB _ _ hb1 hb2 hd

theorem inv_create_fresh (s : RegState) (hs : Inv s) (hnpos : ¬ 0 < s.fSize)
    (hcap : ¬ INVALID_INDEX ≤ s.entities.length) :
    Inv { s with
          entities := s.entities ++ [ComposeEntity s.entities.length 0],
          storages := s.storages.map (fun st =>
            st.Init (EntityToIndex (ComposeEntity s.entities.length 0))
              (ComposeEntity s.entities.length 0)) } := by
  obtain ⟨h1, h2, h3, h4, h5, h6, h7, h8⟩ := hs
  have hfz : s.fSize = 0 := Nat.eq_zero_of_not_pos hnpos
  have hltm : s.entities.length < INDEX_MASK := by
    simpa [INVALID_INDEX] using Nat.lt_of_not_le hcap
  have hchain0 : ∀ ents : List Nat, chainAux ents s.fSize s.fNext = [] := by
    intro ents
    rw [hfz]
    rfl
  refine ⟨?_, ?_, ?_, ?_, ?_, ?_, ?_, ?_⟩
  · show (s.entities ++ _).length ≤ INDEX_MASK
    rw [List.length_append]
    simp only [List.length_cons, List.length_nil]
    omega
  · show (chainAux (s.entities ++ _) s.fSize s.fNext).Nodup
    rw [hchain0]
    exact List.nodup_nil
  · intro j hj
    replace hj : j ∈ chainAux (s.entities ++ [ComposeEntity s.entities.length 0])
        s.fSize s.fNext := hj
    rw [hchain0] at hj
    exact absurd hj (List.not_mem_nil j)
  · intro j hj
    replace hj : j ∈ chainAux (s.entities ++ [ComposeEntity s.entities.length 0])
        s.fSize s.fNext := hj
    rw [hchain0] at hj
    exact absurd hj (List.not_mem_nil j)
  · show afterChain (s.entities ++ _) s.fSize s.fNext = INVALID_INDEX
    rw [hfz, afterChain]
    have := h5
    rw [hfz, afterChain] at this
    exact this
  · intro j hj hnot
    replace hj : j < (s.entities ++ [ComposeEntity s.entities.length 0]).length := hj
    rw [List.length_append] at hj
    simp only [List.length_cons, List.length_nil] at hj
    show EntityToIndex ((s.entities ++ [ComposeEntity s.entities.length 0]).getD j 0) = j
    rcases Nat.lt_or_ge j s.entities.length with hjl | hjg
    · rw [getD_append_left _ _ _ _ hjl]
      refine h6 j hjl ?_
      rw [freeChain, hchain0]
      exact List.not_mem_nil j
    · have hje : j = s.entities.length := by omega
      rw [hje, getD_append_length, EntityToIndex_compose]
      exact mod_pow20_eq _ (le_of_lt hltm)
  · intro st hst
    obtain ⟨st0, hst0, rfl⟩ := List.mem_map.mp hst
    show (st0.Init _ _).data.length =
      (s.entities ++ [ComposeEntity s.entities.length 0]).length - s.fSize
    rw [Init_data_length, h7 st0 hst0, RegState.Size, List.length_append, hfz]
    simp
  · intro st1 hst1 st2 hst2
    obtain ⟨stA, hstA, rfl⟩ := List.mem_map.mp hst1
    obtain ⟨stB, hstB, rfl⟩ := List.mem_map.mp hst2
    obtain ⟨hb1, hb2⟩ := h8 stA hstA stB hstB
    have hd : stA.data.length = stB.data.length := by
      rw [h7 stA hstA, h7 stB hstB]
    exact Init_bookkeeping stA stB _ _ hb1 hb2 hd

theorem CheckEntity_none_iff (s : RegState) (e : Nat) :
    s.CheckEntity e = none ↔
      (e ≠ NullEntity ∧ EntityToIndex e < s.entities.length ∧
        s.entities.getD (EntityToIndex e) 0 = e) := by
  constructor
  · intro h
    rw [RegState.CheckEntity] at h
    split_ifs at h with hnull hoob hne
    exact ⟨hnull, by omega, not_not.mp hne⟩
  · rintro ⟨a, b, c⟩
    rw [RegState.CheckEntity, if_neg a, if_neg (by omega), if_neg (not_not.mpr c)]

theorem IsValidEntity_iff (s : RegState) (e : Nat) :
    s.IsValidEntity e = true ↔
      (e ≠ NullEntity ∧ EntityToIndex e < s.entities.length ∧
        s.entities.getD (EntityToIndex e) 0 = e) := by
  rw [RegState.IsValidEntity]
  split_ifs with hnull hoob
  · simp [hnull]
  · constructor
    · intro h; exact absurd h (by simp)
    · rintro ⟨a, b, c⟩; omega
  · constructor
    · intro h
      exact ⟨hnull, by omega, by simpa using h⟩
    · rintro ⟨a, b, c⟩
      simpa using c

theorem valid_iff_check_none (s : RegState) (e : Nat) :
    s.IsValidEntity e = true ↔ s.CheckEntity e = none := by
  rw [IsValidEntity_iff, CheckEntity_none_iff]

theorem inv_destroy_state (s : RegState) (hs : Inv s) (e : Nat)
    (hchk : s.CheckEntity e = none) :
    Inv { entities := s.entities.set (EntityToIndex e)
            (ComposeEntity s.fNext (NextEntityVersion (s.entities.getD (EntityToIndex e) 0))),
          fNext := EntityToIndex e,
          fSize := s.fSize + 1,
          storages := s.storages.map (fun st => st.Kill (EntityToIndex e)) } := by
  obtain ⟨h1, h2, h3, h4, h5, h6, h7, h8⟩ := hs
  obtain ⟨hnull, hilt, hgetD⟩ := (CheckEntity_none_iff s e).mp hchk
  have hidx : EntityToIndex (s.entities.getD (EntityToIndex e) 0) = EntityToIndex e := by
    rw [hgetD]
  have hnotmem : EntityToIndex e ∉ freeChain s := fun hmem => h4 _ hmem hidx
  have hfle : s.fNext ≤ INDEX_MASK := by
    rcases Nat.eq_zero_or_pos s.fSize with hfz | hfp
    · have := h5
      rw [hfz, afterChain] at this
      rw [this, INVALID_INDEX]
    · obtain ⟨k, hk⟩ : ∃ k, s.fSize = k + 1 :=
        ⟨s.fSize - 1, (Nat.succ_pred_eq_of_pos hfp).symm⟩
      have hmem : s.fNext ∈ freeChain s := by
        rw [freeChain, hk, chainAux]
        exact List.mem_cons_self _ _
      exact le_of_lt (lt_of_lt_of_le (h3 _ hmem) h1)
  have hf20 : s.fNext % 2 ^ 20 = s.fNext := mod_pow20_eq _ hfle
  have hgetset : (s.entities.set (EntityToIndex e)
      (ComposeEntity s.fNext (NextEntityVersion (s.entities.getD (EntityToIndex e) 0)))).getD
        (EntityToIndex e) 0 =
      ComposeEntity s.fNext (NextEntityVersion (s.entities.getD (EntityToIndex e) 0)) :=
    getD_set_self _ _ _ _ hilt
  have hidxnew : EntityToIndex ((s.entities.set (EntityToIndex e)
      (ComposeEntity s.fNext (NextEntityVersion (s.entities.getD (EntityToIndex e) 0)))).getD
        (EntityToIndex e) 0) = s.fNext := by
    rw [hgetset, EntityToIndex_compose, hf20]
  have hchain1 : chainAux (s.entities.set (EntityToIndex e)
        (ComposeEntity s.fNext (NextEntityVersion (s.entities.getD (EntityToIndex e) 0))))
        (s.fSize + 1) (EntityToIndex e) =
      EntityToIndex e :: freeChain s := by
    rw [chainAux, hidxnew,
        chainAux_set_of_not_mem s.entities (EntityToIndex e) _ s.fSize s.fNext hnotmem]
    rfl
  have hfne : s.fNext ≠ EntityToIndex e := by
    rcases Nat.eq_zero_or_pos s.fSize with hfz | hfp
    · have := h5
      rw [hfz, afterChain] at this
      rw [this]
      intro hcon
      rw [← hcon] at hilt
      have := lt_of_lt_of_le hilt h1
      simp [INVALID_INDEX] at this
    · obtain ⟨k, hk⟩ : ∃ k, s.fSize = k + 1 :=
        ⟨s.fSize - 1, (Nat.succ_pred_eq_of_pos hfp).symm⟩
      have hmem : s.fNext ∈ freeChain s := by
        rw [freeChain, hk, chainAux]
        exact List.mem_cons_self _ _
      exact fun hcon => hnotmem (hcon ▸ hmem)
  refine ⟨?_, ?_, ?_, ?_, ?_, ?_, ?_, ?_⟩
  · show (s.entities.set _ _).length ≤ INDEX_MASK
    rw [List.length_set]
    exact h1
  · show (chainAux (s.entities.set _ _) (s.fSize + 1) _).Nodup
    rw [hchain1, List.nodup_cons]
    exact ⟨hnotmem, h2⟩
  · intro j hj
    replace hj : j ∈ chainAux (s.entities.set (EntityToIndex e)
        (ComposeEntity s.fNext (NextEntityVersion (s.entities.getD (EntityToIndex e) 0))))
        (s.fSize + 1) (EntityToIndex e) := hj
    rw [hchain1] at hj
    show j < (s.entities.set _ _).length
    rw [List.length_set]
    rcases List.mem_cons.mp hj with rfl | hj2
    · exact hilt
    · exact h3 j hj2
  · intro j hj
    replace hj : j ∈ chainAux (s.entities.set (EntityToIndex e)
        (ComposeEntity s.fNext (NextEntityVersion (s.entities.getD (EntityToIndex e) 0))))
        (s.fSize + 1) (EntityToIndex e) := hj
    rw [hchain1] at hj
    rcases List.mem_cons.mp hj with rfl | hj2
    · show EntityToIndex ((s.entities.set (EntityToIndex e) _).getD (EntityToIndex e) 0) ≠
        EntityToIndex e
      rw [hidxnew]
      exact hfne
    · have hji : EntityToIndex e ≠ j := fun hji => hnotmem (hji ▸ hj2)
      show EntityToIndex ((s.entities.set (EntityToIndex e) _).getD j 0) ≠ j
      rw [getD_set_ne _ _ _ _ _ hji]
      exact h4 j hj2
  · show afterChain (s.entities.set _ _) (s.fSize + 1) _ = INVALID_INDEX
    rw [afterChain, hidxnew,
        afterChain_set_of_not_mem s.entities (EntityToIndex e) _ s.fSize s.fNext hnotmem]
    exact h5
  · intro j hj hnot
    replace hnot : j ∉ chainAux (s.entities.set (EntityToIndex e)
        (ComposeEntity s.fNext (NextEntityVersion (s.entities.getD (EntityToIndex e) 0))))
        (s.fSize + 1) (EntityToIndex e) := hnot
    rw [hchain1] at hnot
    simp only [List.mem_cons, not_or] at hnot
    obtain ⟨hji, hnot2⟩ := hnot
    replace hj : j < (s.entities.set (EntityToIndex e)
        (ComposeEntity s.fNext (NextEntityVersion (s.entities.getD (EntityToIndex e) 0)))).length := hj
    rw [List.length_set] at hj
    show EntityToIndex ((s.entities.set (EntityToIndex e) _).getD j 0) = j
    rw [getD_set_ne _ _ _ _ _ (fun hij => hji hij.symm)]
    exact h6 j hj hnot2
  · intro st hst
    obtain ⟨st0, hst0, rfl⟩ := List.mem_map.mp hst
    show (st0.Kill _).data.length = (s.entities.set _ _).length - (s.fSize + 1)
    rw [Kill_data_length, h7 st0 hst0, RegState.Size, List.length_set]
    omega
  · intro st1 hst1 st2 hst2
    obtain ⟨stA, hstA, rfl⟩ := List.mem_map.mp hst1
    obtain ⟨stB, hstB, rfl⟩ := List.mem_map.mp hst2
    obtain ⟨hb1, hb2⟩ := h8 stA hstA stB hstB
    have hd : stA.data.length = stB.data.length := by
      rw [h7 stA hstA, h7 stB hstB]
    exact Kill_bookkeeping stA stB _ hb1 hb2 hd

theorem inv_DestroyEntity (s : RegState) (hs : Inv s) (e : Nat) (s1 : RegState)
    (h : s.DestroyEntity e = Except.ok s1) : Inv s1 := by
  rw [RegState.DestroyEntity] at h
  split at h
  · exact absurd h (by simp)
  · rename_i hchk
    simp only [Except.ok.injEq] at h
    rw [← h]
    exact inv_destroy_state s hs e hchk

theorem inv_CreateEntity (s : RegState) (hs : Inv s) (e1 : Nat) (s1 : RegState)
    (h : s.CreateEntity = Except.ok (e1, s1)) : Inv s1 := by
  rw [RegState.CreateEntity] at h
  split at h
  · rename_i hpos
    simp only [Except.ok.injEq, Prod.mk.injEq] at h
    obtain ⟨he1, hs1⟩ := h
    rw [← hs1]
    exact inv_create_reuse s hs hpos
  · rename_i hnpos
    split at h
    · exact absurd h (by simp)
    · rename_i hcap
      simp only [Except.ok.injEq, Prod.mk.injEq] at h
      obtain ⟨he1, hs1⟩ := h
      rw [← hs1]
      exact inv_create_fresh s hs hnpos hcap

theorem inv_SetSafe (s : RegState) (hs : Inv s) (k e v : Nat) (s1 : RegState)
    (h : s.SetSafe k e v = Except.ok s1) : Inv s1 := by
  rw [RegState.SetSafe] at h
  split at h
  · exact absurd h (by simp)
  · simp only [Except.ok.injEq] at h
    rw [← h]
    exact inv_SetComp s k e v hs

theorem inv_stepReg (s : RegState) (hs : Inv s) (op : RegOp) : Inv (stepReg s op) := by
  cases op with
  | create =>
    show Inv (match s.CreateEntity with
      | Except.ok (_, s1) => s1
      | Except.error _ => s)
    cases hc : s.CreateEntity with
    | ok pr =>
      obtain ⟨e1, s1⟩ := pr
      exact inv_CreateEntity s hs e1 s1 hc
    | error _ => exact hs
  | destroy e =>
    show Inv (match s.DestroyEntity e with
      | Except.ok s1 => s1
      | Except.error _ => s)
    cases hc : s.DestroyEntity e with
    | ok s1 => exact inv_DestroyEntity s hs e s1 hc
    | error _ => exact hs
  | setComp k e v => exact inv_SetComp s k e v hs
  | setSafe k e v =>
    show Inv (match s.SetSafe k e v with
      | Except.ok s1 => s1
      | Except.error _ => s)
    cases hc : s.SetSafe k e v with
    | ok s1 => exact inv_SetSafe s hs k e v s1 hc
    | error _ => exact hs
  | clearOp => exact inv_Clear s

theorem inv_foldl (ops : List RegOp) :
    ∀ (s : RegState), Inv s → Inv (ops.foldl stepReg s) := by
  induction ops with
  | nil => intro s hs; exact hs
  | cons op ops ih =>
    intro s hs
    rw [List.foldl_cons]
    exact ih (stepReg s op) (inv_stepReg s hs op)

theorem inv_runReg (n : Nat) (ops : List RegOp) : Inv (runReg n ops) :=
  inv_foldl ops (initReg n) (inv_initReg n)

/-! ### Error classification helpers -/

theorem CheckEntity_some_kind (s : RegState) (e : Nat) (err : RegError)
    (h : s.CheckEntity e = some err) : err ≠ RegError.tooMany := by
  rw [RegState.CheckEntity] at h
  split_ifs at h <;> (injection h with h2; subst h2; decide)

theorem CheckEntity_invalid (s : RegState) (e : Nat)
    (h : s.IsValidEntity e = false) :
    ∃ err, s.CheckEntity e = some err ∧ err ≠ RegError.tooMany := by
  cases hc : s.CheckEntity e with
  | none =>
    have := (valid_iff_check_none s e).mpr hc
    rw [h] at this
    exact absurd this (by simp)
  | some err =>
    exact ⟨err, rfl, CheckEntity_some_kind s e err hc⟩

theorem DestroyEntity_error (s : RegState) (e : Nat) (err : RegError)
    (h : s.CheckEntity e = some err) : s.DestroyEntity e = Except.error err := by
  rw [RegState.DestroyEntity, h]

theorem SetSafe_error (s : RegState) (k e v : Nat) (err : RegError)
    (h : s.CheckEntity e = some err) : s.SetSafe k e v = Except.error err := by
  rw [RegState.SetSafe, h]

/-! ### Claim theorems -/

/-- Claim C6: `IsValidEntity(e)` returns false when `e` is the null sentinel,
false when the index of `e` is out of the entity table's bounds, false when
the table's current handle at that index is not exactly `e` (covering the
not-live and stale-generation cases in a single comparison), and true
otherwise. -/
theorem C6_isvalid_cases (s : RegState) (e : Nat) :
    (e = NullEntity → s.IsValidEntity e = false) ∧
    (s.entities.length ≤ EntityToIndex e → s.IsValidEntity e = false) ∧
    (s.entities.getD (EntityToIndex e) 0 ≠ e → s.IsValidEntity e = false) ∧
    ((e ≠ NullEntity ∧ EntityToIndex e < s.entities.length ∧
        s.entities.getD (EntityToIndex e) 0 = e) → s.IsValidEntity e = true) := by
  refine ⟨?_, ?_, ?_, ?_⟩
  · intro h
    rw [RegState.IsValidEntity, if_pos h]
  · intro h
    rw [RegState.IsValidEntity]
    by_cases h1 : e = NullEntity
    · rw [if_pos h1]
    · rw [if_neg h1, if_pos h]
  · intro h
    rw [RegState.IsValidEntity]
    by_cases h1 : e = NullEntity
    · rw [if_pos h1]
    · rw [if_neg h1]
      by_cases h2 : s.entities.length ≤ EntityToIndex e
      · rw [if_pos h2]
      · rw [if_neg h2]
        simpa using h
  · rintro ⟨a, b, c⟩
    exact (IsValidEntity_iff s e).mpr ⟨a, b, c⟩

/-- Witness for C6 at a concrete registry: a freshly created handle passes
the positive case. -/
theorem C6_isvalid_cases_witness :
    (runReg 1 [RegOp.create]).IsValidEntity 0 = true :=
  (C6_isvalid_cases (runReg 1 [RegOp.create]) 0).2.2.2 ⟨by decide, by decide, by decide⟩

/-- Claim C9: for any handle `e` with `IsValidEntity(e)` false, both
`DestroyEntity(e)` and `SetSafe(e, ...)` raise an invalid-entity error (never
the capacity error) before performing any mutation, and the registry state is
left completely unchanged. -/
theorem C9_invalid_entity_atomicity (s : RegState) (e : Nat)
    (h : s.IsValidEntity e = false) (k v : Nat) :
    (∃ err, s.DestroyEntity e = Except.error err ∧ err ≠ RegError.tooMany) ∧
    (∃ err, s.SetSafe k e v = Except.error err ∧ err ≠ RegError.tooMany) ∧
    stepReg s (RegOp.destroy e) = s ∧
    stepReg s (RegOp.setSafe k e v) = s := by
  obtain ⟨err, herr, hkind⟩ := CheckEntity_invalid s e h
  have hd : s.DestroyEntity e = Except.error err := DestroyEntity_error s e err herr
  have hss : s.SetSafe k e v = Except.error err := SetSafe_error s k e v err herr
  refine ⟨⟨err, hd, hkind⟩, ⟨err, hss, hkind⟩, ?_, ?_⟩
  · show (match s.DestroyEntity e with
      | Except.ok s1 => s1
      | Except.error _ => s) = s
    rw [hd]
  · show (match s.SetSafe k e v with
      | Except.ok s1 => s1
      | Except.error _ => s) = s
    rw [hss]

/-- Witness for C9: destroying or safe-setting the null handle on a
one-component registry with one live entity errors and changes nothing. -/
theorem C9_invalid_entity_atomicity_witness :
    (∃ err, (runReg 1 [RegOp.create]).DestroyEntity NullEntity = Except.error err ∧
      err ≠ RegError.tooMany) ∧
    (∃ err, (runReg 1 [RegOp.create]).SetSafe 0 NullEntity 5 = Except.error err ∧
      err ≠ RegError.tooMany) ∧
    stepReg (runReg 1 [RegOp.create]) (RegOp.destroy NullEntity) = runReg 1 [RegOp.create] ∧
    stepReg (runReg 1 [RegOp.create]) (RegOp.setSafe 0 NullEntity 5) = runReg 1 [RegOp.create] :=
  C9_invalid_entity_atomicity (runReg 1 [RegOp.create]) NullEntity (by decide) 0 5

theorem EntityToIndex_lt (e : Nat) : EntityToIndex e < 2 ^ 20 := by
  simp only [EntityToIndex, INDEX_BITS]
  omega

theorem DestroyEntity_ok (s : RegState) (e : Nat) (hchk : s.CheckEntity e = none) :
    s.DestroyEntity e = Except.ok (destroyedState s e) := by
  rw [RegState.DestroyEntity, hchk]
  rfl

theorem CreateEntity_reuse (s : RegState) (hpos : 0 < s.fSize) :
    s.CreateEntity = Except.ok (reuseCreated s) := by
  rw [RegState.CreateEntity, if_pos hpos]
  rfl

theorem CreateEntity_fresh (s : RegState) (hnpos : ¬ 0 < s.fSize)
    (hcap : ¬ INVALID_INDEX ≤ s.entities.length) :
    s.CreateEntity = Except.ok (freshCreated s) := by
  rw [RegState.CreateEntity, if_neg hnpos, if_neg hcap]
  rfl

theorem compose_next_ne (e fx : Nat) (hnull : e ≠ NullEntity) :
    ComposeEntity fx (NextEntityVersion e) ≠ e := by
  intro hcon
  have hv := congrArg EntityToVersion hcon
  rw [EntityToVersion_compose, NextEntityVersion, if_neg hnull] at hv
  have hlt := EntityToVersion_lt e
  simp only [VERSION_BITS] at hv hlt
  omega

/-- Claim C7: after `DestroyEntity(e)` succeeds, a second `DestroyEntity`
with the same now-stale handle raises the invalid-entity (stale/not-active)
error instead of modifying any state. -/
theorem C7_double_destroy_rejected (s s1 : RegState) (e : Nat)
    (h : s.DestroyEntity e = Except.ok s1) :
    s1.DestroyEntity e = Except.error RegError.staleEntity := by
  rw [RegState.DestroyEntity] at h
  split at h
  · exact absurd h (by simp)
  · rename_i hchk
    simp only [Except.ok.injEq] at h
    obtain ⟨hnull, hilt, hgetD⟩ := (CheckEntity_none_iff s e).mp hchk
    have hchk1 : s1.CheckEntity e = some RegError.staleEntity := by
      rw [← h, RegState.CheckEntity, if_neg hnull, if_neg (by
        show ¬ ((s.entities.set (EntityToIndex e) _).length ≤ EntityToIndex e)
        rw [List.length_set]
        omega)]
      rw [if_pos ?hne]
      case hne =>
        show (s.entities.set (EntityToIndex e)
            (ComposeEntity s.fNext (NextEntityVersion (s.entities.getD (EntityToIndex e) 0)))).getD
            (EntityToIndex e) 0 ≠ e
        rw [getD_set_self _ _ _ _ hilt, hgetD]
        exact compose_next_ne e s.fNext hnull
    rw [RegState.DestroyEntity, hchk1]

/-- Witness for C7: create then destroy handle 0; a second destroy of the
stale handle reports the stale-entity error. -/
theorem C7_double_destroy_rejected_witness :
    (runReg 1 [RegOp.create]).DestroyEntity 0 = Except.ok c7post ∧
    c7post.DestroyEntity 0 = Except.error RegError.staleEntity :=
  ⟨by rfl, C7_double_destroy_rejected (runReg 1 [RegOp.create]) c7post 0 (by rfl)⟩

/-- Claim C4: in any reachable registry state, destroying a live entity `e`
(which makes its index the most recently freed one) and then calling
`CreateEntity` yields a handle `e2` with the same index and the version
advanced by one modulo the version space; `e` is invalid after the destroy
and `e2` is valid after the create. -/
theorem C4_version_index_reuse (n : Nat) (ops : List RegOp) (e : Nat)
    (h : (runReg n ops).IsValidEntity e = true) :
    ∃ s1 e2 s2,
      (runReg n ops).DestroyEntity e = Except.ok s1 ∧
      s1.CreateEntity = Except.ok (e2, s2) ∧
      EntityToIndex e2 = EntityToIndex e ∧
      EntityToVersion e2 = (EntityToVersion e + 1) % 2 ^ VERSION_BITS ∧
      s1.IsValidEntity e = false ∧
      s2.IsValidEntity e2 = true := by
  obtain ⟨hinv1, hinv2, hinv3, hinv4, hinv5, hinv6, hinv7, hinv8⟩ := inv_runReg n ops
  obtain ⟨hnull, hilt, hgetD⟩ := (IsValidEntity_iff _ e).mp h
  have hchk : (runReg n ops).CheckEntity e = none :=
    (CheckEntity_none_iff _ e).mpr ⟨hnull, hilt, hgetD⟩
  -- facts about the intermediate (post-destroy) state
  have hDnext : (destroyedState (runReg n ops) e).fNext = EntityToIndex e := rfl
  have hDlen : (destroyedState (runReg n ops) e).entities.length =
      (runReg n ops).entities.length := List.length_set _ _ _
  have hDget : (destroyedState (runReg n ops) e).entities.getD (EntityToIndex e) 0 =
      ComposeEntity (runReg n ops).fNext (NextEntityVersion e) := by
    show ((runReg n ops).entities.set (EntityToIndex e) _).getD (EntityToIndex e) 0 = _
    rw [getD_set_self _ _ _ _ hilt, hgetD]
  have hpos : 0 < (destroyedState (runReg n ops) e).fSize := Nat.succ_pos _
  -- the recreated handle
  have he2 : (reuseCreated (destroyedState (runReg n ops) e)).1 =
      ComposeEntity (EntityToIndex e)
        (EntityToVersion (ComposeEntity (runReg n ops).fNext (NextEntityVersion e))) := by
    show ComposeEntity (destroyedState (runReg n ops) e).fNext
        (EntityToVersion ((destroyedState (runReg n ops) e).entities.getD
          (destroyedState (runReg n ops) e).fNext 0)) = _
    rw [hDnext, hDget]
  have hidx2 : EntityToIndex (reuseCreated (destroyedState (runReg n ops) e)).1 =
      EntityToIndex e := by
    rw [he2, EntityToIndex_compose]
    exact Nat.mod_eq_of_lt (EntityToIndex_lt e)
  refine ⟨destroyedState (runReg n ops) e,
    (reuseCreated (destroyedState (runReg n ops) e)).1,
    (reuseCreated (destroyedState (runReg n ops) e)).2,
    DestroyEntity_ok _ e hchk,
    CreateEntity_reuse _ hpos, hidx2, ?_, ?_, ?_⟩
  · -- version advanced by one mod the version space
    rw [he2, EntityToVersion_compose, EntityToVersion_compose, NextEntityVersion,
        if_neg hnull]
    simp only [VERSION_BITS]
    omega
  · -- the destroyed handle is no longer valid
    rw [Bool.eq_false_iff]
    intro hvt
    obtain ⟨_, _, hg⟩ := (IsValidEntity_iff _ e).mp hvt
    rw [hDget] at hg
    exact compose_next_ne e (runReg n ops).fNext hnull hg
  · -- the recreated handle is valid in the final state
    refine (IsValidEntity_iff _ _).mpr ⟨?_, ?_, ?_⟩
    · refine ne_null_of_index_lt _ ?_
      rw [hidx2]
      calc EntityToIndex e < (runReg n ops).entities.length := hilt
        _ ≤ INDEX_MASK := hinv1
    · show EntityToIndex (reuseCreated (destroyedState (runReg n ops) e)).1 <
        ((destroyedState (runReg n ops) e).entities.set
          (destroyedState (runReg n ops) e).fNext _).length
      rw [List.length_set, hidx2, hDlen]
      exact hilt
    · show ((destroyedState (runReg n ops) e).entities.set
          (destroyedState (runReg n ops) e).fNext
          (reuseCreated (destroyedState (runReg n ops) e)).1).getD
          (EntityToIndex (reuseCreated (destroyedState (runReg n ops) e)).1) 0 =
        (reuseCreated (destroyedState (runReg n ops) e)).1

      rw [hidx2]
      have : EntityToIndex e < (destroyedState (runReg n ops) e).entities.length := by
        rw [hDlen]; exact hilt
      rw [show (destroyedState (runReg n ops) e).fNext = EntityToIndex e from rfl]
      exact getD_set_self _ _ _ _ this

/-- Witness for C4: a single created entity (handle 0) in a one-component
registry is valid and can be destroyed and recreated. -/
theorem C4_version_index_reuse_witness :
    (runReg 1 [RegOp.create]).IsValidEntity 0 = true ∧
    (∃ s1 e2 s2,
      (runReg 1 [RegOp.create]).DestroyEntity 0 = Except.ok s1 ∧
      s1.CreateEntity = Except.ok (e2, s2) ∧
      EntityToIndex e2 = EntityToIndex 0 ∧
      EntityToVersion e2 = (EntityToVersion 0 + 1) % 2 ^ VERSION_BITS ∧
      s1.IsValidEntity 0 = false ∧
      s2.IsValidEntity e2 = true) :=
  ⟨by decide, C4_version_index_reuse 1 [RegOp.create] 0 (by decide)⟩

/-- Claim C10: whenever `CreateEntity` does not raise the capacity error in a
reachable state, the returned handle has index bits strictly below
`INDEX_MASK` (so it is never `NullEntity`), is valid immediately after the
call, and is distinct from every other handle that is live afterwards (two
live handles with the same index coincide). -/
theorem C10_create_valid_distinct (n : Nat) (ops : List RegOp) (e2 : Nat) (s2 : RegState)
    (h : (runReg n ops).CreateEntity = Except.ok (e2, s2)) :
    EntityToIndex e2 < INDEX_MASK ∧ e2 ≠ NullEntity ∧
    s2.IsValidEntity e2 = true ∧
    (∀ f, s2.IsValidEntity f = true → EntityToIndex f = EntityToIndex e2 → f = e2) := by
  obtain ⟨hinv1, hinv2, hinv3, hinv4, hinv5, hinv6, hinv7, hinv8⟩ := inv_runReg n ops
  rw [RegState.CreateEntity] at h
  split at h
  · -- free-list reuse branch
    rename_i hpos
    simp only [Except.ok.injEq, Prod.mk.injEq] at h
    obtain ⟨he2, hs2⟩ := h
    subst he2
    subst hs2
    obtain ⟨k, hk⟩ : ∃ k, (runReg n ops).fSize = k + 1 :=
      ⟨(runReg n ops).fSize - 1, (Nat.succ_pred_eq_of_pos hpos).symm⟩
    have hflt : (runReg n ops).fNext < (runReg n ops).entities.length := by
      refine hinv3 _ ?_
      rw [freeChain, hk, chainAux]
      exact List.mem_cons_self _ _
    have hfmask : (runReg n ops).fNext < INDEX_MASK := lt_of_lt_of_le hflt hinv1
    have hidx : EntityToIndex (ComposeEntity (runReg n ops).fNext
        (EntityToVersion ((runReg n ops).entities.getD (runReg n ops).fNext 0))) =
        (runReg n ops).fNext := by
      rw [EntityToIndex_compose]
      exact mod_pow20_eq _ (le_of_lt hfmask)
    refine ⟨?_, ?_, ?_, ?_⟩
    · rw [hidx]; exact hfmask
    · exact ne_null_of_index_lt _ (by rw [hidx]; exact hfmask)
    · refine (IsValidEntity_iff _ _).mpr ⟨ne_null_of_index_lt _ (by rw [hidx]; exact hfmask),
        ?_, ?_⟩
      · show EntityToIndex _ < ((runReg n ops).entities.set (runReg n ops).fNext _).length
        rw [hidx, List.length_set]
        exact hflt
      · show ((runReg n ops).entities.set (runReg n ops).fNext _).getD (EntityToIndex _) 0 = _
        rw [hidx]
        exact getD_set_self _ _ _ _ hflt
    · intro f hf hfi
      obtain ⟨hfn, hfl, hfg⟩ := (IsValidEntity_iff _ f).mp hf
      rw [hidx] at hfi
      rw [← hfg, hfi]
      show ((runReg n ops).entities.set (runReg n ops).fNext _).getD (runReg n ops).fNext 0 = _
      exact getD_set_self _ _ _ _ hflt
  · -- fresh-slot branch
    rename_i hnpos
    split at h
    · exact absurd h (by simp)
    · rename_i hcap
      simp only [Except.ok.injEq, Prod.mk.injEq] at h
      obtain ⟨he2, hs2⟩ := h
      subst he2
      subst hs2
      have hltm : (runReg n ops).entities.length < INDEX_MASK := by
        simpa [INVALID_INDEX] using Nat.lt_of_not_le hcap
      have hidx : EntityToIndex (ComposeEntity (runReg n ops).entities.length 0) =
          (runReg n ops).entities.length := by
        rw [EntityToIndex_compose]
        exact mod_pow20_eq _ (le_of_lt hltm)
      refine ⟨?_, ?_, ?_, ?_⟩
      · rw [hidx]; exact hltm
      · exact ne_null_of_index_lt _ (by rw [hidx]; exact hltm)
      · refine (IsValidEntity_iff _ _).mpr ⟨ne_null_of_index_lt _ (by rw [hidx]; exact hltm),
          ?_, ?_⟩
        · show EntityToIndex _ < ((runReg n ops).entities ++ _).length
          rw [hidx, List.length_append]
          simp
        · show ((runReg n ops).entities ++
              [ComposeEntity (runReg n ops).entities.length 0]).getD (EntityToIndex _) 0 = _
          rw [hidx]
          exact getD_append_length _ _ _
      · intro f hf hfi
        obtain ⟨hfn, hfl, hfg⟩ := (IsValidEntity_iff _ f).mp hf
        rw [hidx] at hfi
        rw [← hfg, hfi]
        show ((runReg n ops).entities ++
            [ComposeEntity (runReg n ops).entities.length 0]).getD
            (runReg n ops).entities.length 0 = _
        exact getD_append_length _ _ _

/-- Witness for C10: the first `CreateEntity` on an empty two-component
registry returns handle 0, which is valid and uniquely live. -/
theorem C10_create_valid_distinct_witness :
    (runReg 2 []).CreateEntity = Except.ok ((freshCreated (initReg 2)).1,
      (freshCreated (initReg 2)).2) ∧
    (EntityToIndex (freshCreated (initReg 2)).1 < INDEX_MASK ∧
      (freshCreated (initReg 2)).1 ≠ NullEntity ∧
      (freshCreated (initReg 2)).2.IsValidEntity (freshCreated (initReg 2)).1 = true ∧
      (∀ f, (freshCreated (initReg 2)).2.IsValidEntity f = true →
        EntityToIndex f = EntityToIndex (freshCreated (initReg 2)).1 →
        f = (freshCreated (initReg 2)).1)) :=
  ⟨by rfl, C10_create_valid_distinct 2 [] _ _ (by rfl)⟩

/-- Claim C3: between registry operations (any reachable state), for every
pair of component storages A, B and every live entity, the dense slot A
assigns to the entity equals the one B assigns; the parallel dense
entity arrays coincide, so dense slot `i` refers to the same logical entity
in every storage; and every storage's dense length equals the registry's
live entity count. -/
theorem C3_slot_alignment (n : Nat) (ops : List RegOp) (stA stB : Storage)
    (hA : stA ∈ (runReg n ops).storages) (hB : stB ∈ (runReg n ops).storages) :
    (∀ e, (runReg n ops).IsValidEntity e = true → denseSlotOf stA e = denseSlotOf stB e) ∧
    stA.slotToEntity = stB.slotToEntity ∧
    stA.indexToSlot = stB.indexToSlot ∧
    stA.data.length = (runReg n ops).Size ∧
    stB.data.length = (runReg n ops).Size := by
  obtain ⟨h1, h2, h3, h4, h5, h6, h7, h8⟩ := inv_runReg n ops
  obtain ⟨hs2e, hitos⟩ := h8 stA hA stB hB
  refine ⟨?_, hs2e, hitos, h7 stA hA, h7 stB hB⟩
  intro e _
  rw [denseSlotOf, denseSlotOf, hitos]

/-- Witness for C3 on a two-component registry after a mixed sequence of
creates, destroys and sets. -/
theorem C3_slot_alignment_witness :
    ((runReg 2 c3ops).storages.getD 0 emptyStorage ∈ (runReg 2 c3ops).storages) ∧
    ((runReg 2 c3ops).storages.getD 1 emptyStorage ∈ (runReg 2 c3ops).storages) ∧
    ((∀ e, (runReg 2 c3ops).IsValidEntity e = true →
        denseSlotOf ((runReg 2 c3ops).storages.getD 0 emptyStorage) e =
        denseSlotOf ((runReg 2 c3ops).storages.getD 1 emptyStorage) e) ∧
      ((runReg 2 c3ops).storages.getD 0 emptyStorage).slotToEntity =
        ((runReg 2 c3ops).storages.getD 1 emptyStorage).slotToEntity ∧
      ((runReg 2 c3ops).storages.getD 0 emptyStorage).indexToSlot =
        ((runReg 2 c3ops).storages.getD 1 emptyStorage).indexToSlot ∧
      ((runReg 2 c3ops).storages.getD 0 emptyStorage).data.length = (runReg 2 c3ops).Size ∧
      ((runReg 2 c3ops).storages.getD 1 emptyStorage).data.length = (runReg 2 c3ops).Size) :=
  ⟨by decide, by decide,
    C3_slot_alignment 2 c3ops _ _ (by decide) (by decide)⟩

/-! ### Chunk read/write lemmas -/

theorem readSlot_of_unalloc (CS : Nat) (chunks : List (List (Option Nat))) (i : Nat)
    (h : chunks.length ≤ i / CS) : readSlot CS chunks i = none := by
  rw [readSlot, List.getD_eq_getElem?_getD chunks (i / CS) [], List.getElem?_eq_none h]
  rfl

theorem wf_writeSlot (CS : Nat) (chunks : List (List (Option Nat))) (i : Nat)
    (x : Option Nat) (hwf : ∀ c ∈ chunks, c.length = CS) :
    ∀ c ∈ writeSlot CS chunks i x, c.length = CS := by
  intro c hc
  rcases List.mem_or_eq_of_mem_set hc with hmem | rfl
  · exact hwf c hmem
  · rcases Nat.lt_or_ge (i / CS) chunks.length with hlt | hge
    · rw [List.length_set]
      refine hwf _ ?_
      rw [List.getD_eq_getElem chunks [] hlt]
      exact List.getElem_mem hlt
    · refine hwf _ ?_
      rw [writeSlot, List.set_eq_of_length_le hge] at hc
      exact hc

theorem length_writeSlot (CS : Nat) (chunks : List (List (Option Nat))) (i : Nat)
    (x : Option Nat) : (writeSlot CS chunks i x).length = chunks.length := by
  rw [writeSlot, List.length_set]

theorem readSlot_writeSlot_self (CS : Nat) (hCS : 0 < CS)
    (chunks : List (List (Option Nat))) (i : Nat) (x : Option Nat)
    (hwf : ∀ c ∈ chunks, c.length = CS) (hlt : i / CS < chunks.length) :
    readSlot CS (writeSlot CS chunks i x) i = x := by
  rw [readSlot, writeSlot, getD_set_self _ _ _ _ hlt]
  have hchunk : (chunks.getD (i / CS) []).length = CS := by
    refine hwf _ ?_
    rw [List.getD_eq_getElem chunks [] hlt]
    exact List.getElem_mem hlt
  rw [getD_set_self _ _ _ _ (by rw [hchunk]; exact Nat.mod_lt _ hCS)]

theorem readSlot_writeSlot_ne (CS : Nat)
    (chunks : List (List (Option Nat))) (i j : Nat) (x : Option Nat)
    (hne : i ≠ j) :
    readSlot CS (writeSlot CS chunks j x) i = readSlot CS chunks i := by
  by_cases hc : i / CS = j / CS
  · rcases Nat.lt_or_ge (j / CS) chunks.length with hlt | hge
    · rw [readSlot, writeSlot, hc, getD_set_self _ _ _ _ hlt]
      have hoff : j % CS ≠ i % CS := by
        intro heq
        apply hne
        have h1 := Nat.div_add_mod i CS
        have h2 := Nat.div_add_mod j CS
        rw [hc, ← heq] at h1
        exact h1.symm.trans h2
      rw [getD_set_ne _ _ _ _ _ hoff, readSlot, hc]
    · rw [writeSlot, List.set_eq_of_length_le hge]
  · rw [readSlot, writeSlot, getD_set_ne _ _ _ _ _ (fun hko => hc hko.symm), readSlot]

theorem destroy_range_chunks_length (CS : Nat) :
    ∀ (k first : Nat) (s : ChunkedArray),
      (ChunkedArray.destroy_range CS k first s).chunks.length = s.chunks.length
  | 0, _, _ => rfl
  | k + 1, first, s => by
    rw [ChunkedArray.destroy_range,
        destroy_range_chunks_length CS k (first + 1) (ChunkedArray.destroy_at CS s first)]
    show (writeSlot CS s.chunks first none).length = _
    rw [length_writeSlot]

theorem destroy_range_elemCount (CS : Nat) :
    ∀ (k first : Nat) (s : ChunkedArray),
      (ChunkedArray.destroy_range CS k first s).elemCount = s.elemCount
  | 0, _, _ => rfl
  | k + 1, first, s => by
    rw [ChunkedArray.destroy_range,
        destroy_range_elemCount CS k (first + 1) (ChunkedArray.destroy_at CS s first)]
    rfl

theorem readSlot_destroy_range (CS : Nat) (hCS : 0 < CS) :
    ∀ (k first : Nat) (s : ChunkedArray), (∀ c ∈ s.chunks, c.length = CS) →
      ∀ (i : Nat), readSlot CS (ChunkedArray.destroy_range CS k first s).chunks i =
        if first ≤ i ∧ i < first + k then none else readSlot CS s.chunks i := by
  intro k
  induction k with
  | zero =>
    intro first s hwf i
    rw [ChunkedArray.destroy_range, if_neg (by omega)]
  | succ k ih =>
    intro first s hwf i
    rw [ChunkedArray.destroy_range]
    have hwf2 : ∀ c ∈ (ChunkedArray.destroy_at CS s first).chunks, c.length = CS := by
      show ∀ c ∈ writeSlot CS s.chunks first none, c.length = CS
      exact wf_writeSlot CS s.chunks first none hwf
    rw [ih (first + 1) (ChunkedArray.destroy_at CS s first) hwf2 i]
    by_cases hi : i = first
    · subst hi
      rw [if_neg (by omega), if_pos (by omega)]
      show readSlot CS (writeSlot CS s.chunks i none) i = none
      rcases Nat.lt_or_ge (i / CS) s.chunks.length with hlt | hge
      · exact readSlot_writeSlot_self CS hCS s.chunks i none hwf hlt
      · rw [writeSlot, List.set_eq_of_length_le hge]
        exact readSlot_of_unalloc CS s.chunks i hge
    · by_cases hcond : first + 1 ≤ i ∧ i < first + 1 + k
      · rw [if_pos hcond, if_pos (by omega)]
      · rw [if_neg hcond, if_neg (by omega)]
        show readSlot CS (writeSlot CS s.chunks first none) i = _
        exact readSlot_writeSlot_ne CS s.chunks i first none hi

theorem update_write_ptr_chunks (CS : Nat) (s : ChunkedArray) :
    (ChunkedArray.update_write_ptr CS s).chunks = s.chunks := by
  rw [ChunkedArray.update_write_ptr]
  split_ifs <;> rfl

theorem update_write_ptr_elemCount (CS : Nat) (s : ChunkedArray) :
    (ChunkedArray.update_write_ptr CS s).elemCount = s.elemCount := by
  rw [ChunkedArray.update_write_ptr]
  split_ifs <;> rfl

/-- Claim C8: for any chunked-array state (power-of-two chunk size, chunks of
full capacity) and any `n` below the current size, `resize(n)` leaves the
size at `n`, never touches the chunk count (shrinking releases no chunk
memory), leaves every element below `n` unchanged, destroys exactly the
elements in `[n, oldSize)` (their slots hold no live object afterwards), and
leaves slots at and beyond the old size untouched. -/
theorem C8_resize_shrink (CS k0 : Nat) (hCS : CS = 2 ^ k0) (s : ChunkedArray) (n : Nat)
    (hwf : ∀ c ∈ s.chunks, c.length = CS) (hn : n < s.elemCount) :
    ChunkedArray.size (ChunkedArray.resize CS s n) = n ∧
    ChunkedArray.chunk_count (ChunkedArray.resize CS s n) = ChunkedArray.chunk_count s ∧
    (∀ i, i < n → ChunkedArray.read CS (ChunkedArray.resize CS s n) i =
      ChunkedArray.read CS s i) ∧
    (∀ i, n ≤ i → i < s.elemCount →
      ChunkedArray.read CS (ChunkedArray.resize CS s n) i = none) ∧
    (∀ i, s.elemCount ≤ i → ChunkedArray.read CS (ChunkedArray.resize CS s n) i =
      ChunkedArray.read CS s i) := by
  have hCS0 : 0 < CS := by
    rw [hCS]
    exact pow_pos (by norm_num) k0
  have hres : ChunkedArray.resize CS s n =
      ChunkedArray.update_write_ptr CS
        { ChunkedArray.destroy_elements CS s n s.elemCount with elemCount := n } := by
    rw [ChunkedArray.resize, if_neg (by omega), if_pos hn]
  have hchunks : (ChunkedArray.resize CS s n).chunks =
      (ChunkedArray.destroy_range CS (s.elemCount - n) n s).chunks := by
    rw [hres, update_write_ptr_chunks]
    rfl
  have hreads : ∀ i, ChunkedArray.read CS (ChunkedArray.resize CS s n) i =
      if n ≤ i ∧ i < n + (s.elemCount - n) then none else readSlot CS s.chunks i := by
    intro i
    rw [ChunkedArray.read, hchunks, readSlot_destroy_range CS hCS0 _ n s hwf i]
  refine ⟨?_, ?_, ?_, ?_, ?_⟩
  · rw [ChunkedArray.size, hres, update_write_ptr_elemCount]
  · rw [ChunkedArray.chunk_count, ChunkedArray.chunk_count, hchunks,
        destroy_range_chunks_length]
  · intro i hi
    rw [hreads i, if_neg (by omega), ChunkedArray.read]
  · intro i hi1 hi2
    rw [hreads i, if_pos (by omega)]
  · intro i hi
    rw [hreads i, if_neg (by omega), ChunkedArray.read]

/-- Witness for C8: shrinking the three-element chunk-size-2 array to one
element. -/
theorem C8_resize_shrink_witness :
    ((2 : Nat) = 2 ^ 1) ∧ (∀ c ∈ c8pre.chunks, c.length = 2) ∧ (1 < c8pre.elemCount) ∧
    (ChunkedArray.size (ChunkedArray.resize 2 c8pre 1) = 1 ∧
      ChunkedArray.chunk_count (ChunkedArray.resize 2 c8pre 1) =
        ChunkedArray.chunk_count c8pre ∧
      (∀ i, i < 1 → ChunkedArray.read 2 (ChunkedArray.resize 2 c8pre 1) i =
        ChunkedArray.read 2 c8pre i) ∧
      (∀ i, 1 ≤ i → i < c8pre.elemCount →
        ChunkedArray.read 2 (ChunkedArray.resize 2 c8pre 1) i = none) ∧
      (∀ i, c8pre.elemCount ≤ i → ChunkedArray.read 2 (ChunkedArray.resize 2 c8pre 1) i =
        ChunkedArray.read 2 c8pre i)) :=
  ⟨by norm_num, by decide, by decide,
    C8_resize_shrink 2 1 (by norm_num) c8pre 1 (by decide) (by decide)⟩

/-! ### Evaluation of the chunk-skipping defect (claims C1 and C2)

After `push 1; push 2; pop; pop; push 3; push 4` on a chunk-size-1 array,
`emplace_back` finds the write cursor at the end of chunk 0 and calls
`allocate_new_chunk`, which appends a brand-new third chunk even though
chunk 1 — the chunk `operator[]` associates with index 1 — already exists.
The value 4 is therefore constructed at physical chunk 2 (logical index 2),
while index 1 still holds the destroyed slot. -/

set_option maxRecDepth 100000

/-- Claim C1 (code divergence): the reference vector ends as `[3, 4]`, and
both sizes are 2, but the chunked array's `operator[]` at index 1 addresses
a slot whose object was destroyed by `pop_back` and never reconstructed
(the stale bytes of the popped 2 in the C++ build), and a third chunk was
allocated; the segmented array does not match the reference vector. -/
theorem C1_vector_equivalence_fails :
    ChunkedArray.size skipState = 2 ∧
    runVec skipOps = [3, 4] ∧
    (runVec skipOps).getD 1 0 = 4 ∧
    ChunkedArray.read 1 skipState 1 = none ∧
    ChunkedArray.chunk_count skipState = 3 := by
  decide

/-- Claim C2 (code divergence): in the pop/push state the size is 2, yet the
slot of logical index 1 (below the size) holds no live object while a
constructed object (the value 4) lives at logical index 2, beyond the size —
the live elements are not the contiguous range `[0, elemCount)`.
Independently, `reserve(8); ensure_size(3)` (chunk size 2) leaves the size at
3 but default-constructs the whole of the pre-allocated trailing chunks:
logical index 4 ≥ size holds a constructed object, because the grow loop of
`ensure_size` runs to `chunks.size()` rather than to the last chunk that
`count` needs. -/
theorem C2_lifetime_invariant_fails :
    (ChunkedArray.size skipState = 2 ∧
      ChunkedArray.read 1 skipState 1 = none ∧
      ChunkedArray.read 1 skipState 2 = some 4) ∧
    (ChunkedArray.size (ChunkedArray.ensure_size 2 (ChunkedArray.reserve 2 initCA 8) 3) = 3 ∧
      ChunkedArray.read 2 (ChunkedArray.ensure_size 2 (ChunkedArray.reserve 2 initCA 8) 3) 3 =
        none ∧
      ChunkedArray.read 2 (ChunkedArray.ensure_size 2 (ChunkedArray.reserve 2 initCA 8) 3) 4 =
        some 0) := by
  decide

/-! ### The §8 pop/push regression scenario (claim C5), evaluated in
checkpointed segments -/

theorem c5split : regressionOps =
    c5ops1 ++ (c5ops2 ++ (c5ops3 ++ (c5pops ++ [CAOp.push 777]))) := by
  decide

theorem c5step1 : List.foldl (stepCA 256) initCA c5ops1 = c5s1 := by decide

theorem c5step2 : List.foldl (stepCA 256) c5s1 c5ops2 = c5s2 := by decide

theorem c5step3 : List.foldl (stepCA 256) c5s2 c5ops3 = c5s3 := by decide

theorem c5step4 : List.foldl (stepCA 256) c5s3 c5pops = c5s4 := by decide

theorem c5step5 : List.foldl (stepCA 256) c5s4 [CAOp.push 777] = c5s5 := by decide

theorem c5eval : regressionState = c5s5 := by
  show List.foldl (stepCA 256) initCA regressionOps = c5s5
  rw [c5split, List.foldl_append, List.foldl_append, List.foldl_append,
      List.foldl_append, c5step1, c5step2, c5step3, c5step4, c5step5]

/-- Claim C5: with chunk size 256, pushing 384 elements, popping down to
size 256 and pushing 777 yields size 257, still exactly 2 chunks (no new
chunk is allocated), the element at index 256 equal to 777, and no
destructor ever ran on a dead slot during the whole sequence. -/
theorem C5_boundary_regression :
    ChunkedArray.size regressionState = 257 ∧
    ChunkedArray.chunk_count regressionState = 2 ∧
    ChunkedArray.read 256 regressionState 256 = some 777 ∧
    regressionState.dtorOnDead = 0 := by
  rw [ChunkedArray.size, ChunkedArray.chunk_count, ChunkedArray.read, c5eval]
  decide

end Entable
